import Mathlib

/-!
Verification of the ESP32 datalogger client (`src/main.py`) against its
natural-language specification.

The pipeline under verification lives in the `DataLogger` Kivy app:
`receive_messages` (line framing), `update_graph` (record decoding, the
monotonic-timestamp gate, per-channel transform and series/axis update),
`store_to_csv` (persistence), `create_graph` / `reset_graphs` (channel
registry), and `send_string_over_bluetooth` (outbound command path).

Modelling conventions:
- Python strings are `List Char`; Python floats are modelled by exact
  rationals `ℚ` (the transform arithmetic is treated exactly; the literal
  `3.3` becomes `33/10`).
- Python `int(s)` / `float(s)` are modelled for finite ASCII decimal
  literals (optional surrounding whitespace, optional sign, underscores
  between digits, and for floats an optional fraction and exponent); the
  special float spellings `inf`/`nan` are outside the inputs considered.
- Python `int(x)` on a number truncates toward zero (`pyTrunc`).
- Mutable `self.*` fields of the app become the `AppState` record; Kivy
  graph widgets become `GraphState` (one per created channel, in creation
  order, matching `children[-(i+1)]` indexing).
- The `try/except` around the body of `update_graph` becomes explicit
  early-exit propagation: a failing field stops the channel loop, keeping
  the effects of the iterations already executed, and skips the final
  `last_received_time` assignment, exactly as the exception does.
-/

/-- Python `str.strip()` whitespace test, restricted to the ASCII
whitespace characters. -/
def isPySpace (c : Char) : Bool :=
  c = ' ' || c = '\t' || c = '\n' || c = '\r' || c = '\x0b' || c = '\x0c'

/-- Python `s.strip()`: drop leading and trailing whitespace. -/
def pyStrip (cs : List Char) : List Char :=
  ((cs.dropWhile isPySpace).reverse.dropWhile isPySpace).reverse

/-- Python `s.split(',')`: split on every comma, keeping empty pieces
(`"".split(',') == [""]`). -/
def splitComma : List Char → List (List Char)
  | [] => [[]]
  | c :: rest =>
    if c = ',' then [] :: splitComma rest
    else
      match splitComma rest with
      | [] => [[c]]
      | l :: ls => (c :: l) :: ls

/-- Value of a list of decimal digit characters. -/
def digitsToNat (cs : List Char) : Nat :=
  cs.foldl (fun a c => 10 * a + (c.toNat - 48)) 0

/-- Validate a digit group in which a single `_` may stand between two
digits (PEP 515), returning the digits with underscores removed.  The
caller guarantees the first character is a digit. -/
def deUnderscore : List Char → Option (List Char)
  | [] => some []
  | c :: rest =>
    if c.isDigit then (deUnderscore rest).map (c :: ·)
    else if c = '_' then
      match rest with
      | d :: _ => if d.isDigit then deUnderscore rest else none
      | [] => none
    else none

/-- A nonempty digit group (underscores allowed between digits), as a
natural number. -/
def pyNatDigits (cs : List Char) : Option Nat :=
  match cs with
  | [] => none
  | c :: _ => if c.isDigit then (deUnderscore cs).map digitsToNat else none

/-- Optional sign; `true` means negative. -/
def parseSign : List Char → Bool × List Char
  | '+' :: rest => (false, rest)
  | '-' :: rest => (true, rest)
  | cs => (false, cs)

/-- Python `int(s)` on ASCII input: strip whitespace, optional sign,
then decimal digits (underscores permitted between digits). -/
def pyInt (cs : List Char) : Option Int :=
  let cs := pyStrip cs
  let (neg, body) := parseSign cs
  (pyNatDigits body).map (fun n => if neg then -(n : Int) else (n : Int))

/-- Take the maximal prefix of digits/underscores. -/
def spanDigitsU (cs : List Char) : List Char × List Char :=
  cs.span (fun c => c.isDigit || c = '_')

/-- A possibly-empty digit group: empty is allowed (meaning "absent"),
otherwise it must start with a digit and satisfy the underscore rule. -/
def validGroup (cs : List Char) : Option (List Char) :=
  match cs with
  | [] => some []
  | c :: _ => if c.isDigit then deUnderscore cs else none

/-- Finish a float literal: mantissa from integer digits `ipd` and
fraction digits `fpd`, then an optional exponent, requiring the rest of
the input to be consumed. -/
def pyFloatFinish (neg : Bool) (ipd fpd : List Char) (cs : List Char) : Option ℚ :=
  let mant : ℚ := (digitsToNat (ipd ++ fpd) : ℚ) / (10 ^ fpd.length)
  let signed : ℚ := if neg then -mant else mant
  match cs with
  | [] => some signed
  | 'e' :: r | 'E' :: r =>
    let (eneg, r1) := parseSign r
    let (ed, r2) := spanDigitsU r1
    match validGroup ed with
    | none => none
    | some edd =>
      if edd.isEmpty || !r2.isEmpty then none
      else
        let e := digitsToNat edd
        some (if eneg then signed / 10 ^ e else signed * 10 ^ e)
  | _ => none

/-- Python `float(s)` on finite ASCII decimal literals, valued in `ℚ`. -/
def pyFloat (cs : List Char) : Option ℚ :=
  let cs := pyStrip cs
  let (neg, body) := parseSign cs
  let (ip, rest) := spanDigitsU body
  match validGroup ip with
  | none => none
  | some ipd =>
    match rest with
    | '.' :: rest1 =>
      let (fp, rest2) := spanDigitsU rest1
      match validGroup fp with
      | none => none
      | some fpd =>
        if ipd.isEmpty && fpd.isEmpty then none
        else pyFloatFinish neg ipd fpd rest2
    | _ => if ipd.isEmpty then none else pyFloatFinish neg ipd [] rest

/-- Python `int(x)` on a number: truncation toward zero. -/
def pyTrunc (q : ℚ) : Int :=
  q.num.tdiv q.den

/-- One entry of `self.graph_info` (the Channel Registry): the dictionary
appended by `create_graph`. -/
structure GraphInfo where
  name : String
  axis_limit : Int
  graph_type : String
deriving DecidableEq, Inhabited

/-- The state of one Kivy `Graph` widget that the pipeline reads or
writes: the plot's point list and the axis fields touched by
`update_graph`. -/
structure GraphState where
  points : List (Int × ℚ)
  xmax : ℚ
  ymax : ℚ
  x_ticks_major : Int
  y_ticks_major : Int
deriving DecidableEq, Inhabited

/-- The mutable fields of the `DataLogger` app used by the ingestion
pipeline.  `graphs` holds the created graph widgets in creation order;
the loop in `update_graph` reads `children[-(i+1)]`, which is the `i`-th
created widget, so `graphs[i]` models it.  `csv_rows` is the content of
the session's CSV log (one row per `writerow` call). -/
structure AppState where
  last_received_time : Int
  graph_count : Nat
  graph_info : List GraphInfo
  graphs : List GraphState
  csv_rows : List (List (List Char))
  buffer : List Char
  connected : Bool
deriving DecidableEq, Inhabited

/-- `on_start` (plus the empty framing buffer set at the top of
`receive_messages` and an empty CSV log). -/
def initState : AppState :=
  { last_received_time := 0
    graph_count := 0
    graph_info := []
    graphs := []
    csv_rows := []
    buffer := []
    connected := false }

/-- `create_graph`: appends a `graph_info` entry and a fresh graph widget
(`xmin=0, xmax=100, ymin=0, ymax=axis_limit`, `x_ticks_major=100`,
`y_ticks_major=int(axis_limit/4)`) and increments `graph_count`. -/
def create_graph (s : AppState) (name : String) (axis_limit : Int)
    (graph_type : String) : AppState :=
  { s with
    graph_info := s.graph_info ++ [{ name := name, axis_limit := axis_limit,
                                     graph_type := graph_type }]
    graphs := s.graphs ++ [{ points := []
                             xmax := 100
                             ymax := (axis_limit : ℚ)
                             x_ticks_major := 100
                             y_ticks_major := pyTrunc ((axis_limit : ℚ) / 4) }]
    graph_count := s.graph_count + 1 }

/-- `reset_graphs`: clears the widgets, the registry, the count and the
last-received timestamp (the CSV log and framing buffer are untouched). -/
def reset_graphs (s : AppState) : AppState :=
  { s with
    graphs := []
    graph_info := []
    graph_count := 0
    last_received_time := 0 }

/-- The per-field value computation of the `update_graph` loop body:
`y = (float(v) * axis_limit) / (3.3 - float(v))` for a `"Resistance"`
channel, `y = float(v)` otherwise.  `none` models the `ValueError` of an
unparseable field or the `ZeroDivisionError` at the `3.3 - v == 0`
singularity. -/
def transformValue (gi : GraphInfo) (raw : List Char) : Option ℚ :=
  match pyFloat raw with
  | none => none
  | some v =>
    if gi.graph_type = "Resistance" then
      if (33 / 10 : ℚ) - v = 0 then none
      else some ((v * (gi.axis_limit : ℚ)) / ((33 / 10 : ℚ) - v))
    else some v

/-- The effect of one loop iteration of `update_graph` on its graph
widget: append `(time, y)` to the plot, raise `xmax` to
`max(int(xmax), time)` with `x_ticks_major = int(new_max_x/4)`, and when
`y > int(ymax)` set `ymax = max(int(ymax), y) * 1.1` with
`y_ticks_major = int(new_max_y/4)`. -/
def stepGraph (time : Int) (y : ℚ) (g : GraphState) : GraphState :=
  let new_max_x : Int := max (pyTrunc g.xmax) time
  let g1 : GraphState :=
    { g with points := g.points ++ [(time, y)]
             xmax := (new_max_x : ℚ)
             x_ticks_major := pyTrunc ((new_max_x : ℚ) / 4) }
  if y > ((pyTrunc g.ymax : Int) : ℚ) then
    let new_max_y : ℚ := max ((pyTrunc g.ymax : Int) : ℚ) y * (11 / 10)
    { g1 with ymax := new_max_y, y_ticks_major := pyTrunc (new_max_y / 4) }
  else g1

/-- One iteration of the `for i in range(self.graph_count)` loop:
`none` models an exception before any effect of the iteration (widget or
registry or field lookup out of range, field unparseable, or the division
singularity); `some` returns the widget list with entry `i` updated. -/
def chanStep (time : Int) (values : List (List Char)) (infos : List GraphInfo)
    (graphs : List GraphState) (i : Nat) : Option (List GraphState) :=
  match graphs[i]?, infos[i]?, values[i + 1]? with
  | some g, some gi, some raw =>
    (transformValue gi raw).map (fun y => graphs.set i (stepGraph time y g))
  | _, _, _ => none

/-- Does field `i + 1` of the record transform successfully for channel
`i`?  (`false` when the registry or the record has no such entry, or the
transform fails.) -/
def fieldOK (values : List (List Char)) (infos : List GraphInfo) (i : Nat) : Bool :=
  match infos[i]?, values[i + 1]? with
  | some gi, some raw => (transformValue gi raw).isSome
  | _, _ => false

/-- The channel loop of `update_graph`, with the `try/except` semantics:
run `chanStep` for `i, i+1, ...` for `fuel` iterations; on the first
exception stop, keeping the effects already applied, and report `false`
(the trailing `last_received_time` assignment is skipped). -/
def runChannels (time : Int) (values : List (List Char)) (infos : List GraphInfo) :
    List GraphState → Nat → Nat → List GraphState × Bool
  | graphs, _, 0 => (graphs, true)
  | graphs, i, n + 1 =>
    match chanStep time values infos graphs i with
    | some graphs1 => runChannels time values infos graphs1 (i + 1) n
    | none => (graphs, false)

/-- The decode phase of `update_graph` (lines 166-168):
`values = data.strip().split(',')`, require `len(values) == 5`, then
`time = int(values[0])`; `none` models both the ignored short/long record
and the caught `ValueError`. -/
def decode (line : List Char) : Option (Int × List (List Char)) :=
  let values := splitComma (pyStrip line)
  if values.length = 5 then
    (pyInt values.headI).map (fun t => (t, values))
  else none

/-- `update_graph`: decode, gate on `time > self.last_received_time`,
run the channel loop, and update `last_received_time` only when the loop
completed without an exception. -/
def update_graph (s : AppState) (data : List Char) : AppState :=
  match decode data with
  | none => s
  | some (time, values) =>
    if s.last_received_time < time then
      let r := runChannels time values s.graph_info s.graphs 0 s.graph_count
      { s with graphs := r.1
               last_received_time := if r.2 then time else s.last_received_time }
    else s

/-- `store_to_csv`: unconditionally append one CSV row holding
`data.strip().split(',')` (the original field strings). -/
def store_to_csv (s : AppState) (data : List Char) : AppState :=
  { s with csv_rows := s.csv_rows ++ [splitComma (pyStrip data)] }

/-- Processing of one framed line in `receive_messages`:
`update_graph(line)` then `store_to_csv(line)`. -/
def processLine (s : AppState) (line : List Char) : AppState :=
  store_to_csv (update_graph s line) line

/-- Processing of a sequence of framed lines, in order. -/
def processLines (s : AppState) (lines : List (List Char)) : AppState :=
  lines.foldl processLine s

/-- The net framing effect of `while '\n' in buffer: line, buffer =
buffer.split('\n', 1)`: peel complete lines off `rest`, accumulating
them (reversed) in `acc`, with `cur` the reversed partial line read so
far. -/
def extractLinesGo (acc : List (List Char)) (cur : List Char) :
    List Char → List (List Char) × List Char
  | [] => (acc.reverse, cur.reverse)
  | c :: rest =>
    if c = '\n' then extractLinesGo (cur.reverse :: acc) [] rest
    else extractLinesGo acc (c :: cur) rest

/-- Split a buffer into its complete `'\n'`-terminated lines (terminator
stripped) and the trailing unterminated remainder. -/
def extractLines (buf : List Char) : List (List Char) × List Char :=
  extractLinesGo [] [] buf

/-- The Line Framer: one `feed` of a received chunk appends it to the
held partial tail and yields the complete lines plus the new tail. -/
def feedFramer (buffer chunk : List Char) : List (List Char) × List Char :=
  extractLines (buffer ++ chunk)

/-- One iteration of the `receive_messages` outer loop after a nonempty
`recv`: extend the buffer, then process each complete line through
`update_graph` and `store_to_csv`, keeping the unterminated tail. -/
def receive_chunk (s : AppState) (data : List Char) : AppState :=
  let fr := feedFramer s.buffer data
  processLines { s with buffer := fr.2 } fr.1

/-- Outcome of `send_string_over_bluetooth`, as reported to the user
(console and connection textbox). -/
inductive SendResult where
  | sent
  | sendFailed
  | notConnected
deriving DecidableEq

/-- `send_string_over_bluetooth`: when not connected, report
`notConnected` and leave the state; when connected, attempt the socket
send exactly once (`transport_ok` tells whether it raises) — on failure
set `connected = False` (the Lost state) and report the error. -/
def send_string_over_bluetooth (connected : Bool) (transport_ok : Bool) :
    SendResult × Bool :=
  if connected then
    if transport_ok then (SendResult.sent, connected)
    else (SendResult.sendFailed, false)
  else (SendResult.notConnected, connected)

/-- Unpacking a successful loop iteration. -/
theorem chanStep_some {time : Int} {values : List (List Char)}
    {infos : List GraphInfo} {graphs : List GraphState} {i : Nat}
    {graphs1 : List GraphState}
    (h : chanStep time values infos graphs i = some graphs1) :
    ∃ g gi raw y, graphs[i]? = some g ∧ infos[i]? = some gi ∧
      values[i + 1]? = some raw ∧ transformValue gi raw = some y ∧
      graphs1 = graphs.set i (stepGraph time y g) := by
  unfold chanStep at h
  cases hg : graphs[i]? with
  | none => rw [hg] at h; cases infos[i]? <;> cases values[i + 1]? <;> simp at h
  | some g =>
    cases hgi : infos[i]? with
    | none => rw [hg, hgi] at h; cases values[i + 1]? <;> simp at h
    | some gi =>
      cases hraw : values[i + 1]? with
      | none => rw [hg, hgi, hraw] at h; simp at h
      | some raw =>
        rw [hg, hgi, hraw] at h
        simp only [Option.map_eq_some'] at h
        obtain ⟨y, hy, hset⟩ := h
        exact ⟨g, gi, raw, y, rfl, rfl, rfl, hy, hset.symm⟩

/-- A failing field makes the iteration raise before any effect. -/
theorem chanStep_eq_none {time : Int} {values : List (List Char)}
    {infos : List GraphInfo} {graphs : List GraphState} {i : Nat}
    (h : fieldOK values infos i = false) :
    chanStep time values infos graphs i = none := by
  unfold fieldOK at h
  unfold chanStep
  cases hgi : infos[i]? with
  | none => cases graphs[i]? <;> cases values[i + 1]? <;> rfl
  | some gi =>
    cases hraw : values[i + 1]? with
    | none => cases graphs[i]? <;> rfl
    | some raw =>
      rw [hgi, hraw] at h
      change (transformValue gi raw).isSome = false at h
      cases htv : transformValue gi raw with
      | some y => rw [htv] at h; simp at h
      | none =>
        cases hg : graphs[i]? with
        | none => rfl
        | some g =>
          show Option.map (fun y => graphs.set i (stepGraph time y g))
            (transformValue gi raw) = none
          rw [htv]
          rfl

/-- A succeeding field (with the widget present) makes the iteration
update exactly entry `i`. -/
theorem chanStep_eq_some_of_fieldOK {time : Int} {values : List (List Char)}
    {infos : List GraphInfo} {graphs : List GraphState} {i : Nat}
    (hlen : i < graphs.length) (h : fieldOK values infos i = true) :
    ∃ g gi raw y, graphs[i]? = some g ∧ infos[i]? = some gi ∧
      values[i + 1]? = some raw ∧ transformValue gi raw = some y ∧
      chanStep time values infos graphs i =
        some (graphs.set i (stepGraph time y g)) := by
  unfold fieldOK at h
  obtain ⟨g, hg⟩ : ∃ g, graphs[i]? = some g :=
    ⟨graphs[i], List.getElem?_eq_getElem hlen⟩
  cases hgi : infos[i]? with
  | none => rw [hgi] at h; cases values[i + 1]? <;> simp at h
  | some gi =>
    cases hraw : values[i + 1]? with
    | none => rw [hgi, hraw] at h; simp at h
    | some raw =>
      rw [hgi, hraw] at h
      simp only [Option.isSome_iff_exists] at h
      obtain ⟨y, hy⟩ := h
      refine ⟨g, gi, raw, y, hg, rfl, rfl, hy, ?_⟩
      unfold chanStep
      rw [hg, hgi, hraw]
      show Option.map (fun y => graphs.set i (stepGraph time y g))
        (transformValue gi raw) = some (graphs.set i (stepGraph time y g))
      rw [hy]
      rfl

/-- The channel loop never changes the list length. -/
theorem runChannels_length (time : Int) (values : List (List Char))
    (infos : List GraphInfo) :
    ∀ n graphs i,
      ((runChannels time values infos graphs i n).1).length = graphs.length := by
  intro n
  induction n with
  | zero => intro graphs i; rfl
  | succ n ih =>
    intro graphs i
    unfold runChannels
    cases h : chanStep time values infos graphs i with
    | none => rfl
    | some graphs1 =>
      obtain ⟨g, gi, raw, y, _, _, _, _, rfl⟩ := chanStep_some h
      simpa [List.length_set] using ih (graphs.set i (stepGraph time y g)) (i + 1)

/-- Entries below the loop's starting index are never touched. -/
theorem runChannels_getElem_lt (time : Int) (values : List (List Char))
    (infos : List GraphInfo) :
    ∀ n graphs i j, j < i →
      ((runChannels time values infos graphs i n).1)[j]? = graphs[j]? := by
  intro n
  induction n with
  | zero => intro graphs i j _; rfl
  | succ n ih =>
    intro graphs i j hj
    unfold runChannels
    cases h : chanStep time values infos graphs i with
    | none => rfl
    | some graphs1 =>
      obtain ⟨g, gi, raw, y, _, _, _, _, rfl⟩ := chanStep_some h
      rw [ih _ (i + 1) j (Nat.lt_succ_of_lt hj),
        List.getElem?_set_ne (Nat.ne_of_gt hj)]

/-- Every entry of the loop's result is either the original widget or the
original widget stepped once with this record's timestamp. -/
theorem runChannels_getElem (time : Int) (values : List (List Char))
    (infos : List GraphInfo) :
    ∀ (n : Nat) (graphs : List GraphState) (i j : Nat),
      ((runChannels time values infos graphs i n).1)[j]? = graphs[j]? ∨
      ∃ g y, graphs[j]? = some g ∧
        ((runChannels time values infos graphs i n).1)[j]? =
          some (stepGraph time y g) := by
  intro n
  induction n with
  | zero => intro graphs i j; left; rfl
  | succ n ih =>
    intro graphs i j
    unfold runChannels
    cases h : chanStep time values infos graphs i with
    | none => left; rfl
    | some graphs1 =>
      obtain ⟨g, gi, raw, y, hg, _, _, _, rfl⟩ := chanStep_some h
      by_cases hij : j = i
      · subst hij
        right
        refine ⟨g, y, hg, ?_⟩
        rw [runChannels_getElem_lt time values infos n _ (j + 1) j
          (Nat.lt_succ_self j)]
        exact List.getElem?_set_self (List.getElem?_eq_some.mp hg).1
      · cases ih (graphs.set i (stepGraph time y g)) (i + 1) j with
        | inl h1 =>
          left
          rw [h1, List.getElem?_set_ne (fun he => hij he.symm)]
        | inr h2 =>
          obtain ⟨g2, y2, hg2, hres⟩ := h2
          rw [List.getElem?_set_ne (fun he => hij he.symm)] at hg2
          exact Or.inr ⟨g2, y2, hg2, hres⟩

/-- When every configured channel's field transforms successfully (and
its widget exists), the loop runs to completion and the trailing
`last_received_time` assignment happens. -/
theorem runChannels_done (time : Int) (values : List (List Char))
    (infos : List GraphInfo) :
    ∀ n graphs i,
      (∀ j, j < n → fieldOK values infos (i + j) = true ∧
        i + j < graphs.length) →
      (runChannels time values infos graphs i n).2 = true := by
  intro n
  induction n with
  | zero => intro graphs i _; rfl
  | succ n ih =>
    intro graphs i hok
    obtain ⟨hf0, hl0⟩ := hok 0 (Nat.succ_pos n)
    rw [Nat.add_zero] at hf0 hl0
    obtain ⟨g, gi, raw, y, hg, _, _, _, hstep⟩ :=
      chanStep_eq_some_of_fieldOK hl0 hf0
    unfold runChannels
    cases h : chanStep time values infos graphs i with
    | none => rw [h] at hstep; cases hstep
    | some graphs1 =>
      have hgr : graphs1 = graphs.set i (stepGraph time y g) := by
        rw [h] at hstep; exact Option.some.inj hstep
      subst hgr
      apply ih
      intro j hj
      obtain ⟨hf, hl⟩ := hok (j + 1) (Nat.succ_lt_succ hj)
      refine ⟨?_, ?_⟩
      · rw [show i + 1 + j = i + (j + 1) by omega]; exact hf
      · rw [List.length_set]; omega

/-- When the fields for channels `i..i+k-1` transform successfully but
the field for channel `i+k` fails, the loop stops at `i+k`: the flag is
`false` (so `last_received_time` stays), entries from `i+k` on are
untouched, and entries `i..i+k-1` received their transformed sample. -/
theorem runChannels_fail (time : Int) (values : List (List Char))
    (infos : List GraphInfo) :
    ∀ k n graphs i, k < n →
      (∀ j, j < k → fieldOK values infos (i + j) = true ∧
        i + j < graphs.length) →
      fieldOK values infos (i + k) = false →
      (runChannels time values infos graphs i n).2 = false ∧
      (∀ j, i + k ≤ j →
        ((runChannels time values infos graphs i n).1)[j]? = graphs[j]?) ∧
      (∀ j, j < k → ∃ g gi raw y,
        graphs[i + j]? = some g ∧ infos[i + j]? = some gi ∧
        values[i + j + 1]? = some raw ∧ transformValue gi raw = some y ∧
        ((runChannels time values infos graphs i n).1)[i + j]? =
          some (stepGraph time y g)) := by
  intro k
  induction k with
  | zero =>
    intro n graphs i hkn hsucc hfail
    rw [Nat.add_zero] at hfail
    obtain ⟨m, rfl⟩ : ∃ m, n = m + 1 := ⟨n - 1, by omega⟩
    unfold runChannels
    rw [chanStep_eq_none hfail]
    exact ⟨rfl, fun j _ => rfl, fun j hj => absurd hj (Nat.not_lt_zero j)⟩
  | succ k ih =>
    intro n graphs i hkn hsucc hfail
    obtain ⟨m, rfl⟩ : ∃ m, n = m + 1 := ⟨n - 1, by omega⟩
    obtain ⟨hf0, hl0⟩ := hsucc 0 (Nat.succ_pos k)
    rw [Nat.add_zero] at hf0 hl0
    obtain ⟨g, gi, raw, y, hg, hgi, hraw, hy, hstep⟩ :=
      chanStep_eq_some_of_fieldOK hl0 hf0
    unfold runChannels
    cases h : chanStep time values infos graphs i with
    | none => rw [h] at hstep; cases hstep
    | some graphs1 =>
      have hgr : graphs1 = graphs.set i (stepGraph time y g) := by
        rw [h] at hstep; exact Option.some.inj hstep
      subst hgr
      have hsucc1 : ∀ j, j < k → fieldOK values infos (i + 1 + j) = true ∧
          i + 1 + j < (graphs.set i (stepGraph time y g)).length := by
        intro j hj
        obtain ⟨hf, hl⟩ := hsucc (j + 1) (Nat.succ_lt_succ hj)
        refine ⟨?_, ?_⟩
        · rw [show i + 1 + j = i + (j + 1) by omega]; exact hf
        · rw [List.length_set]; omega
      have hfail1 : fieldOK values infos (i + 1 + k) = false := by
        rw [show i + 1 + k = i + (k + 1) by omega]; exact hfail
      obtain ⟨hdone, hsame, hupd⟩ :=
        ih m (graphs.set i (stepGraph time y g)) (i + 1) (by omega) hsucc1 hfail1
      refine ⟨hdone, ?_, ?_⟩
      · intro j hj
        rw [hsame j (by omega), List.getElem?_set_ne (by omega)]
      · intro j hj
        cases j with
        | zero =>
          rw [Nat.add_zero]
          refine ⟨g, gi, raw, y, hg, hgi, hraw, hy, ?_⟩
          rw [runChannels_getElem_lt time values infos m _ (i + 1) i
            (Nat.lt_succ_self i)]
          exact List.getElem?_set_self hl0
        | succ j =>
          obtain ⟨g2, gi2, raw2, y2, hg2, hgi2, hraw2, hy2, hres2⟩ :=
            hupd j (by omega)
          rw [List.getElem?_set_ne (by omega)] at hg2
          refine ⟨g2, gi2, raw2, y2, ?_, ?_, ?_, hy2, ?_⟩
          · rw [show i + (j + 1) = i + 1 + j by omega]; exact hg2
          · rw [show i + (j + 1) = i + 1 + j by omega]; exact hgi2
          · rw [show i + (j + 1) + 1 = i + 1 + j + 1 by omega]; exact hraw2
          · rw [show i + (j + 1) = i + 1 + j by omega]; exact hres2

/-- `int()` of a number that is already integral. -/
theorem pyTrunc_intCast (n : Int) : pyTrunc (n : ℚ) = n := by
  unfold pyTrunc
  rw [Rat.intCast_num, Rat.intCast_den]
  exact Int.tdiv_one n

/-- One loop iteration appends exactly the sample `(time, y)` to the
widget's plot. -/
theorem stepGraph_points (time : Int) (y : ℚ) (g : GraphState) :
    (stepGraph time y g).points = g.points ++ [(time, y)] := by
  unfold stepGraph
  dsimp only
  split <;> rfl

/-- One loop iteration sets `xmax` to `max(int(xmax), time)`. -/
theorem stepGraph_xmax (time : Int) (y : ℚ) (g : GraphState) :
    (stepGraph time y g).xmax = ((max (pyTrunc g.xmax) time : Int) : ℚ) := by
  unfold stepGraph
  dsimp only
  split <;> rfl

/-- A line that fails decoding (wrong field count, or an unparseable
timestamp raising the caught `ValueError`) leaves the whole state
untouched. -/
theorem update_graph_decode_none {s : AppState} {data : List Char}
    (h : decode data = none) : update_graph s data = s := by
  simp [update_graph, h]

/-- The monotonicity gate: a decoded record whose timestamp is not
strictly greater than `last_received_time` leaves the state untouched. -/
theorem update_graph_not_accepted {s : AppState} {data : List Char}
    {t : Int} {values : List (List Char)}
    (h : decode data = some (t, values)) (hle : t ≤ s.last_received_time) :
    update_graph s data = s := by
  simp [update_graph, h, not_lt.mpr hle]

/-- An accepted record runs the channel loop and updates
`last_received_time` exactly when the loop completed. -/
theorem update_graph_accepted {s : AppState} {data : List Char}
    {t : Int} {values : List (List Char)}
    (h : decode data = some (t, values)) (hgt : s.last_received_time < t) :
    update_graph s data =
      { s with
        graphs := (runChannels t values s.graph_info s.graphs 0 s.graph_count).1
        last_received_time :=
          if (runChannels t values s.graph_info s.graphs 0 s.graph_count).2
          then t else s.last_received_time } := by
  simp [update_graph, h, hgt]

/-- `update_graph` never touches the channel registry. -/
theorem update_graph_graph_info (s : AppState) (data : List Char) :
    (update_graph s data).graph_info = s.graph_info := by
  unfold update_graph
  cases h : decode data with
  | none => rfl
  | some tv =>
    obtain ⟨t, values⟩ := tv
    by_cases hgt : s.last_received_time < t <;> simp [hgt]

/-- `update_graph` never touches the channel count. -/
theorem update_graph_graph_count (s : AppState) (data : List Char) :
    (update_graph s data).graph_count = s.graph_count := by
  unfold update_graph
  cases h : decode data with
  | none => rfl
  | some tv =>
    obtain ⟨t, values⟩ := tv
    by_cases hgt : s.last_received_time < t <;> simp [hgt]

/-- `update_graph` never touches the CSV log. -/
theorem update_graph_csv_rows (s : AppState) (data : List Char) :
    (update_graph s data).csv_rows = s.csv_rows := by
  unfold update_graph
  cases h : decode data with
  | none => rfl
  | some tv =>
    obtain ⟨t, values⟩ := tv
    by_cases hgt : s.last_received_time < t <;> simp [hgt]

/-- `update_graph` never changes the number of graph widgets. -/
theorem update_graph_graphs_length (s : AppState) (data : List Char) :
    (update_graph s data).graphs.length = s.graphs.length := by
  unfold update_graph
  cases h : decode data with
  | none => rfl
  | some tv =>
    obtain ⟨t, values⟩ := tv
    by_cases hgt : s.last_received_time < t <;>
      simp [hgt, runChannels_length]

/-- `store_to_csv` changes only the CSV log. -/
theorem store_to_csv_graphs (s : AppState) (data : List Char) :
    (store_to_csv s data).graphs = s.graphs := rfl

/-- `store_to_csv` leaves `last_received_time` alone. -/
theorem store_to_csv_last (s : AppState) (data : List Char) :
    (store_to_csv s data).last_received_time = s.last_received_time := rfl

/-- Processing a line never touches the channel registry. -/
theorem processLine_graph_info (s : AppState) (line : List Char) :
    (processLine s line).graph_info = s.graph_info := by
  unfold processLine store_to_csv
  simp [update_graph_graph_info]

/-- Processing a line never touches the channel count. -/
theorem processLine_graph_count (s : AppState) (line : List Char) :
    (processLine s line).graph_count = s.graph_count := by
  unfold processLine store_to_csv
  simp [update_graph_graph_count]

/-- Processing a line never changes the number of graph widgets. -/
theorem processLine_graphs_length (s : AppState) (line : List Char) :
    (processLine s line).graphs.length = s.graphs.length := by
  unfold processLine
  rw [store_to_csv_graphs]
  exact update_graph_graphs_length s line

/-- The Series Store invariant, strengthened to an inductive form: every
channel's plotted timestamps strictly increase, and all of them are at
most the store's `last_received_time`. -/
def seriesOK (s : AppState) : Prop :=
  ∀ g ∈ s.graphs, (g.points.map Prod.fst).Pairwise (· < ·) ∧
    ∀ p ∈ g.points, p.1 ≤ s.last_received_time

/-- A line is clean for a channel configuration when it either fails
decoding or every configured channel's field transforms successfully
(no per-field exception can arise from it). -/
def cleanLine (infos : List GraphInfo) (count : Nat) (line : List Char) : Bool :=
  match decode line with
  | none => true
  | some (_, values) => (List.range count).all (fun i => fieldOK values infos i)

/-- Processing one clean line preserves the Series Store invariant. -/
theorem processLine_seriesOK {s : AppState} {line : List Char}
    (hwf : s.graph_count ≤ s.graphs.length)
    (hclean : cleanLine s.graph_info s.graph_count line = true)
    (hinv : seriesOK s) : seriesOK (processLine s line) := by
  have hstore : seriesOK (update_graph s line) → seriesOK (processLine s line) := by
    intro h g hg
    unfold processLine at hg ⊢
    rw [store_to_csv_graphs] at hg
    rw [store_to_csv_last]
    exact h g hg
  apply hstore
  cases hdec : decode line with
  | none => rw [update_graph_decode_none hdec]; exact hinv
  | some tv =>
    obtain ⟨t, values⟩ := tv
    by_cases hgt : s.last_received_time < t
    · have hall : ∀ i, i < s.graph_count →
          fieldOK values s.graph_info i = true := by
        unfold cleanLine at hclean
        rw [hdec] at hclean
        change (List.range s.graph_count).all
          (fun i => fieldOK values s.graph_info i) = true at hclean
        intro i hi
        exact List.all_eq_true.mp hclean i (List.mem_range.mpr hi)
      have hdone :
          (runChannels t values s.graph_info s.graphs 0 s.graph_count).2 = true := by
        apply runChannels_done
        intro j hj
        refine ⟨by simpa using hall j hj, ?_⟩
        simpa using lt_of_lt_of_le hj hwf
      rw [update_graph_accepted hdec hgt, hdone]
      intro g hg
      simp only [if_true] at hg ⊢
      obtain ⟨j, hjg⟩ := List.mem_iff_getElem?.mp hg
      have hmemold : ∀ {g0 : GraphState}, s.graphs[j]? = some g0 → g0 ∈ s.graphs :=
        fun h0 => List.mem_iff_getElem?.mpr ⟨j, h0⟩
      cases runChannels_getElem t values s.graph_info s.graph_count s.graphs 0 j with
      | inl hsame =>
        rw [hjg] at hsame
        obtain ⟨hpw, hbd⟩ := hinv g (hmemold hsame.symm)
        exact ⟨hpw, fun p hp => le_trans (hbd p hp) (le_of_lt hgt)⟩
      | inr hstep =>
        obtain ⟨g0, y, hg0, hres⟩ := hstep
        rw [hjg] at hres
        have hgeq : g = stepGraph t y g0 := Option.some.inj hres
        subst hgeq
        obtain ⟨hpw, hbd⟩ := hinv g0 (hmemold hg0)
        rw [stepGraph_points]
        constructor
        · rw [List.map_append, List.pairwise_append]
          refine ⟨hpw, List.pairwise_singleton _ _, ?_⟩
          intro a ha b hb
          obtain ⟨p, hp, rfl⟩ := List.mem_map.mp ha
          have hbt : b = t := by simpa using hb
          subst hbt
          exact lt_of_le_of_lt (hbd p hp) hgt
        · intro p hp
          cases List.mem_append.mp hp with
          | inl hpold => exact le_trans (hbd p hpold) (le_of_lt hgt)
          | inr hpnew =>
            have : p = (t, y) := by simpa using hpnew
            subst this
            exact le_refl t
    · rw [update_graph_not_accepted hdec (not_lt.mp hgt)]
      exact hinv

/-- Processing any sequence of clean lines preserves the Series Store
invariant. -/
theorem processLines_seriesOK :
    ∀ (lines : List (List Char)) (s : AppState),
      s.graph_count ≤ s.graphs.length →
      (∀ l ∈ lines, cleanLine s.graph_info s.graph_count l = true) →
      seriesOK s → seriesOK (processLines s lines) := by
  intro lines
  induction lines with
  | nil => intro s _ _ hinv; exact hinv
  | cons l ls ih =>
    intro s hwf hclean hinv
    refine ih (processLine s l) ?_ ?_
      (processLine_seriesOK hwf (hclean l (List.mem_cons_self l ls)) hinv)
    · rw [processLine_graph_count, processLine_graphs_length]; exact hwf
    · intro l2 hl2
      rw [processLine_graph_info, processLine_graph_count]
      exact hclean l2 (List.mem_cons_of_mem l hl2)

/-- Two `"Voltage"` channels with display limit 4, as created by two
`create_graph` calls from a fresh session. -/
def c1State : AppState :=
  create_graph (create_graph initState "a" 4 "Voltage") "b" 4 "Voltage"

/-- C1, counterexample: with two channels, the line `"10,1,x,3,4"` (whose
second field raises in `float`) appends `(10, 1)` to channel 0 but aborts
before `last_received_time` is updated; the following well-formed line
`"10,1,2,3,4"` is then accepted again, so channel 0's series carries the
timestamps `[10, 10]` — not strictly increasing.  This refutes the claim
that the invariant holds under any sequence of processed lines including
lines on which a per-field transform raises. -/
theorem C1_counterexample :
    ((processLines c1State
        ["10,1,x,3,4".toList, "10,1,2,3,4".toList]).graphs.headI.points.map
          Prod.fst) = [10, 10] ∧
    ¬ (((processLines c1State
        ["10,1,x,3,4".toList, "10,1,2,3,4".toList]).graphs.headI.points.map
          Prod.fst).Pairwise (· < ·)) := by
  constructor
  · with_unfolding_all decide
  · with_unfolding_all decide

/-- C1 (amended): for every channel, the series held by the store has
strictly increasing timestamps at every state reached from a state
satisfying the store invariant (e.g. any fresh or just-reset session) by
processing lines on which no per-field transform raises: every processed
line either fails decoding or transforms successfully on all configured
channels. -/
theorem C1_series_monotone (s : AppState) (lines : List (List Char))
    (hwf : s.graph_count ≤ s.graphs.length)
    (hclean : ∀ l ∈ lines, cleanLine s.graph_info s.graph_count l = true)
    (hinv : seriesOK s) :
    ∀ g ∈ (processLines s lines).graphs,
      (g.points.map Prod.fst).Pairwise (· < ·) :=
  fun g hg => (processLines_seriesOK lines s hwf hclean hinv g hg).1

/-- C1, witness: the amended theorem applied to the two-channel session
and two clean records. -/
theorem C1_witness :
    ((processLines c1State
        ["10,1,2,3,4".toList, "20,1,2,3,4".toList]).graphs.headI.points.map
      Prod.fst).Pairwise (· < ·) :=
  C1_series_monotone c1State ["10,1,2,3,4".toList, "20,1,2,3,4".toList]
    (by decide) (by with_unfolding_all decide)
    (by unfold seriesOK; with_unfolding_all decide)
    _ (by with_unfolding_all decide)

/-- C2: a record whose decoded timestamp is not strictly greater than the
single shared `last_received_time` is rejected atomically — `update_graph`
returns the state unchanged, so no channel's series is appended to, every
series length is unchanged, and the last-accepted timestamp is
unchanged. -/
theorem C2_stale_record_rejected_atomically (s : AppState) (line : List Char)
    (t : Int) (values : List (List Char))
    (hdec : decode line = some (t, values))
    (hle : t ≤ s.last_received_time) :
    update_graph s line = s :=
  update_graph_not_accepted hdec hle

/-- C2, witness: with last-accepted timestamp 10, the record
`"5,1,2,3,4"` changes nothing. -/
theorem C2_witness :
    update_graph { initState with last_received_time := 10 } "5,1,2,3,4".toList
      = { initState with last_received_time := 10 } :=
  C2_stale_record_rejected_atomically _ _ 5 [['5'], ['1'], ['2'], ['3'], ['4']]
    (by decide) (by decide)

/-- C3, counterexample: the malformed line `"1,2"` (field count 2 ≠ 5) is
not accepted — no widget exists, `last_received_time` stays 0, no record
reaches any series — yet `store_to_csv` runs for it and the log gains a
row.  So after 1 processed line with 0 accepted records the log has 1
row, refuting "exactly one row per accepted RawRecord". -/
theorem C3_counterexample :
    (processLine initState "1,2".toList).csv_rows = [[['1'], ['2']]] ∧
    (processLine initState "1,2".toList).last_received_time = 0 ∧
    (processLine initState "1,2".toList).graphs = [] := by
  decide

/-- C3 (amended): the persisted log contains exactly one row per
processed framed line — accepted or not — holding that line's original
field strings (the comma-split of the stripped line) in original order;
after processing N lines the log has exactly N more rows. -/
theorem C3_log_rows_per_line (s : AppState) (lines : List (List Char)) :
    (processLines s lines).csv_rows =
      s.csv_rows ++ lines.map (fun l => splitComma (pyStrip l)) := by
  induction lines generalizing s with
  | nil => simp [processLines]
  | cons l ls ih =>
    show (processLines (processLine s l) ls).csv_rows = _
    rw [ih]
    show ((store_to_csv (update_graph s l) l).csv_rows ++ _) = _
    unfold store_to_csv
    simp [update_graph_csv_rows]

/-- C5, counterexample: the line `"-5,1,2,3,4"`, whose timestamp field is
a negative integer, decodes successfully (Python `int` accepts a sign),
refuting the claim that such a line fails with `MalformedRecord`. -/
theorem C5_counterexample :
    decode "-5,1,2,3,4".toList =
      some (-5, [['-', '5'], ['1'], ['2'], ['3'], ['4']]) := by
  decide

/-- C5 (amended): `decode` succeeds exactly when splitting the stripped
line on commas yields exactly 5 fields and field 0 parses as an integer
(sign permitted, so negative timestamps pass decoding); a line that
fails decoding is discarded without changing any state, and a decoded
record with a non-positive timestamp is instead dropped by the
monotonicity gate whenever `last_received_time` is non-negative (as it is
in every reachable state), again changing nothing. -/
theorem C5_decode_characterization (line : List Char) :
    ((decode line).isSome ↔
      ((splitComma (pyStrip line)).length = 5 ∧
        (pyInt (splitComma (pyStrip line)).headI).isSome)) ∧
    (decode line = none → ∀ s : AppState, update_graph s line = s) ∧
    (∀ (s : AppState) (t : Int) (values : List (List Char)),
      decode line = some (t, values) → t ≤ 0 → 0 ≤ s.last_received_time →
      update_graph s line = s) := by
  refine ⟨?_, fun h s => update_graph_decode_none h, ?_⟩
  · by_cases h5 : (splitComma (pyStrip line)).length = 5 <;>
      simp [decode, h5]
  · intro s t values hdec ht hs
    exact update_graph_not_accepted hdec (le_trans ht hs)

/-- C5, witness: the negative-timestamp line decodes but is dropped by
the monotonicity gate from the fresh state. -/
theorem C5_witness :
    update_graph initState "-5,1,2,3,4".toList = initState :=
  (C5_decode_characterization "-5,1,2,3,4".toList).2.2 initState (-5)
    [['-', '5'], ['1'], ['2'], ['3'], ['4']] (by decide) (by decide) (by decide)

/-- C6: for a `"Resistance"` channel with display limit R, a field
parsing to voltage `v ≠ 3.3` transforms to `(v * R) / (3.3 - v)` (exact
rational model of the float arithmetic). -/
theorem C6_voltage_to_resistance (gi : GraphInfo) (raw : List Char) (v : ℚ)
    (htype : gi.graph_type = "Resistance")
    (hv : pyFloat raw = some v) (hne : v ≠ 33 / 10) :
    transformValue gi raw =
      some ((v * (gi.axis_limit : ℚ)) / ((33 / 10 : ℚ) - v)) := by
  simp only [transformValue, hv, htype, if_pos]
  rw [if_neg (sub_ne_zero_of_ne (Ne.symm hne))]

/-- C6, witness: display limit 100 and input voltage `"1.65"` give
resistance 100, the spec's worked example. -/
theorem C6_witness :
    transformValue { name := "r", axis_limit := 100, graph_type := "Resistance" }
      "1.65".toList = some 100 := by
  rw [C6_voltage_to_resistance _ _ ((33 : ℚ) / 20) rfl
    (by with_unfolding_all decide) (by norm_num)]
  norm_num

/-- A buffer with no line terminator passes through the framing loop
untouched: no line is produced and the partial tail is kept. -/
theorem extractLinesGo_no_newline (acc : List (List Char)) :
    ∀ (rest : List Char) (cur : List Char), '\n' ∉ rest →
      extractLinesGo acc cur rest = (acc.reverse, cur.reverse ++ rest) := by
  intro rest
  induction rest with
  | nil => intro cur _; simp [extractLinesGo]
  | cons c rest ih =>
    intro cur h
    have hc : ¬ c = '\n' := fun he => h (he ▸ List.mem_cons_self c rest)
    have hrest : '\n' ∉ rest := fun hm => h (List.mem_cons_of_mem c hm)
    unfold extractLinesGo
    rw [if_neg hc, ih (c :: cur) hrest]
    simp

/-- C8: the Line Framer buffers partial tails across feeds — a chunk
containing no terminator (fed onto a terminator-free buffer) yields zero
lines and extends the buffer; and concretely, feeding `"10,1,2,3,4"`
(no terminator) then `"\n20,1,2,3,4\n"` yields exactly the two lines
`"10,1,2,3,4"` and `"20,1,2,3,4"`, terminators stripped, leaving an
empty buffer. -/
theorem C8_line_framer (buffer chunk : List Char) :
    (feedFramer [] "10,1,2,3,4".toList = ([], "10,1,2,3,4".toList)) ∧
    (feedFramer "10,1,2,3,4".toList "\n20,1,2,3,4\n".toList =
      (["10,1,2,3,4".toList, "20,1,2,3,4".toList], [])) ∧
    ('\n' ∉ buffer → '\n' ∉ chunk →
      feedFramer buffer chunk = ([], buffer ++ chunk)) := by
  refine ⟨by decide, by decide, ?_⟩
  intro hb hc
  unfold feedFramer extractLines
  rw [extractLinesGo_no_newline [] (buffer ++ chunk) []
    (fun hm => (List.mem_append.mp hm).elim hb hc)]
  simp

/-- C8, witness: the no-terminator clause applied to two concrete
terminator-free chunks. -/
theorem C8_witness :
    feedFramer "10,1".toList "2,3".toList =
      ([], "10,1".toList ++ "2,3".toList) :=
  (C8_line_framer "10,1".toList "2,3".toList).2.2 (by decide) (by decide)

/-- C9: `send_string_over_bluetooth` succeeds exactly when the connection
flag is up and the socket send does not raise; every failure leaves the
connection flag down (the Lost/not-connected state) and is reported
through the returned outcome (printed and shown in the connection
textbox), with no retry — the socket send is attempted at most once per
call. -/
theorem C9_send_failure_semantics (connected transport_ok : Bool) :
    ((send_string_over_bluetooth connected transport_ok).1 = SendResult.sent ↔
      connected = true ∧ transport_ok = true) ∧
    ((send_string_over_bluetooth connected transport_ok).1 ≠ SendResult.sent →
      (send_string_over_bluetooth connected transport_ok).2 = false) := by
  cases connected <;> cases transport_ok <;>
    simp [send_string_over_bluetooth]

/-- C9, witness: a connected send whose socket write raises leaves the
connection marked lost. -/
theorem C9_witness :
    (send_string_over_bluetooth true false).2 = false :=
  (C9_send_failure_semantics true false).2 (by decide)

/-- C10: `reset_graphs` clears the channels, widgets and count AND sets
the shared last-accepted timestamp back to 0, so after a mid-session
reset any decoded record with a positive timestamp is accepted —
`last_received_time` becomes its timestamp — no matter how large the
pre-reset timestamps were. -/
theorem C10_reset_reopens_acceptance (s : AppState) (line : List Char)
    (t : Int) (values : List (List Char))
    (hdec : decode line = some (t, values)) (hpos : 0 < t) :
    (reset_graphs s).last_received_time = 0 ∧
    (reset_graphs s).graphs = [] ∧
    (reset_graphs s).graph_info = [] ∧
    (reset_graphs s).graph_count = 0 ∧
    (update_graph (reset_graphs s) line).last_received_time = t := by
  refine ⟨rfl, rfl, rfl, rfl, ?_⟩
  rw [update_graph_accepted hdec (show (reset_graphs s).last_received_time < t
    from hpos)]
  rfl

/-- C10, witness: after a session that accepted up to timestamp 100, a
reset followed by the record `"5,1,2,3,4"` is accepted at timestamp 5. -/
theorem C10_witness :
    (update_graph (reset_graphs { initState with last_received_time := 100 })
      "5,1,2,3,4".toList).last_received_time = 5 :=
  (C10_reset_reopens_acceptance { initState with last_received_time := 100 }
    "5,1,2,3,4".toList 5 [['5'], ['1'], ['2'], ['3'], ['4']]
    (by decide) (by decide)).2.2.2.2

/-- Three `"Voltage"` channels with display limit 4, as created by three
`create_graph` calls from a fresh session. -/
def c4State : AppState :=
  create_graph (create_graph (create_graph initState "a" 4 "Voltage")
    "b" 4 "Voltage") "c" 4 "Voltage"

/-- C4, counterexample: in the record `"10,1,x,3,4"` only channel 1's
field `"x"` fails to transform, and channel 2's own field `"3"`
transforms fine — yet after processing the record channel 0 has received
its sample while channel 2 has received nothing (and the timestamp was
not recorded): the exception aborts the whole remainder of the loop, so
failure is not isolated to the failing field. -/
theorem C4_counterexample :
    transformValue (c4State.graph_info.getD 2 default) ['3'] = some 3 ∧
    ((update_graph c4State "10,1,x,3,4".toList).graphs.getD 0
      default).points.length = 1 ∧
    ((update_graph c4State "10,1,x,3,4".toList).graphs.getD 2
      default).points.length = 0 ∧
    (update_graph c4State "10,1,x,3,4".toList).last_received_time = 0 := by
  with_unfolding_all decide

/-- C4 (amended): a transform failure aborts the remainder of the
record: for an accepted record whose fields transform successfully for
channels `0..k-1` but fail at channel `k`, the channels before `k` still
receive their transformed samples, while channel `k` and every later
channel receive nothing and `last_received_time` is not advanced. -/
theorem C4_transform_failure_aborts_remainder (s : AppState) (line : List Char)
    (t : Int) (values : List (List Char)) (k : Nat)
    (hdec : decode line = some (t, values))
    (hacc : s.last_received_time < t)
    (hk : k < s.graph_count)
    (hwf : s.graph_count ≤ s.graphs.length)
    (hsucc : ∀ j, j < k → fieldOK values s.graph_info j = true)
    (hfail : fieldOK values s.graph_info k = false) :
    (update_graph s line).last_received_time = s.last_received_time ∧
    (∀ j, k ≤ j → (update_graph s line).graphs[j]? = s.graphs[j]?) ∧
    (∀ j, j < k → ∃ g gi raw y,
      s.graphs[j]? = some g ∧ s.graph_info[j]? = some gi ∧
      values[j + 1]? = some raw ∧ transformValue gi raw = some y ∧
      (update_graph s line).graphs[j]? = some (stepGraph t y g)) := by
  obtain ⟨hflag, hsame, hupd⟩ :=
    runChannels_fail t values s.graph_info k s.graph_count s.graphs 0 hk
      (fun j hj => ⟨by simpa using hsucc j hj,
        by simpa using lt_of_lt_of_le (lt_trans hj hk) hwf⟩)
      (by simpa using hfail)
  rw [update_graph_accepted hdec hacc]
  refine ⟨?_, ?_, ?_⟩
  · simp [hflag]
  · intro j hj
    simpa using hsame j (by simpa using hj)
  · intro j hj
    simpa using hupd j hj

/-- C4, witness: the amended theorem at the three-channel session and
the record failing at channel 1. -/
theorem C4_witness :
    (update_graph c4State "10,1,x,3,4".toList).last_received_time =
      c4State.last_received_time :=
  (C4_transform_failure_aborts_remainder c4State "10,1,x,3,4".toList 10
    [['1', '0'], ['1'], ['x'], ['3'], ['4']] 1 (by decide) (by decide)
    (by decide) (by decide) (by with_unfolding_all decide)
    (by with_unfolding_all decide)).1

/-- One `"Voltage"` channel with display limit 2, as created by one
`create_graph` call from a fresh session. -/
def c7State : AppState := create_graph initState "g" 2 "Voltage"

set_option maxRecDepth 4096 in
/-- C7, counterexample: `ymax` is NOT monotonically non-decreasing
within a session.  With display limit 2, the accepted value 2.05 sets
`ymax = max(int(2), 2.05)*1.1 = 2.255`; the next accepted value 2.01
satisfies `2.01 > int(2.255) = 2`, so `ymax` is recomputed as
`max(2, 2.01)*1.1 = 2.211` — a strict decrease on an ordinary processing
step, not a reset. -/
theorem C7_counterexample :
    (processLine c7State "1,2.05,0,0,0".toList).graphs.headI.ymax =
      451 / 200 ∧
    (processLine (processLine c7State "1,2.05,0,0,0".toList)
      "2,2.01,0,0,0".toList).graphs.headI.ymax = 2211 / 1000 ∧
    (processLine (processLine c7State "1,2.05,0,0,0".toList)
      "2,2.01,0,0,0".toList).graphs.headI.ymax <
      (processLine c7State "1,2.05,0,0,0".toList).graphs.headI.ymax := by
  with_unfolding_all decide

/-- C7 (amended): `xmax` is monotonically non-decreasing across
processing steps (given the invariant, true in every reachable state,
that each widget's `xmax` is integral), and integrality is preserved;
`ymax`, by contrast, can decrease on a processing step (see the
counterexample), so only the x-axis bound is monotone within a
session. -/
theorem C7_xmax_monotone (s : AppState) (line : List Char)
    (hint : ∀ g ∈ s.graphs, ∃ n : Int, g.xmax = (n : ℚ)) :
    (∀ g ∈ (processLine s line).graphs, ∃ n : Int, g.xmax = (n : ℚ)) ∧
    (∀ (j : Nat) (g g2 : GraphState), s.graphs[j]? = some g →
      (processLine s line).graphs[j]? = some g2 → g.xmax ≤ g2.xmax) := by
  have hgr : (processLine s line).graphs = (update_graph s line).graphs :=
    store_to_csv_graphs _ _
  rw [hgr]
  have hid : ∀ u : AppState, u.graphs = s.graphs →
      (∀ g ∈ u.graphs, ∃ n : Int, g.xmax = (n : ℚ)) ∧
      (∀ (j : Nat) (g g2 : GraphState), s.graphs[j]? = some g →
        u.graphs[j]? = some g2 → g.xmax ≤ g2.xmax) := by
    intro u hu
    rw [hu]
    refine ⟨hint, fun j g g2 h1 h2 => ?_⟩
    rw [h1] at h2
    rw [Option.some.inj h2]
  cases hdec : decode line with
  | none => exact hid _ (by rw [update_graph_decode_none hdec])
  | some tv =>
    obtain ⟨t, values⟩ := tv
    by_cases hgt : s.last_received_time < t
    · rw [update_graph_accepted hdec hgt]
      dsimp only
      constructor
      · intro g2 hg2
        obtain ⟨j, hj⟩ := List.mem_iff_getElem?.mp hg2
        cases runChannels_getElem t values s.graph_info s.graph_count
            s.graphs 0 j with
        | inl hsame =>
          rw [hj] at hsame
          exact hint g2 (List.mem_iff_getElem?.mpr ⟨j, hsame.symm⟩)
        | inr h =>
          obtain ⟨g0, y, hg0, hres⟩ := h
          refine ⟨max (pyTrunc g0.xmax) t, ?_⟩
          rw [Option.some.inj (hj.symm.trans hres), stepGraph_xmax]
      · intro j g g2 h1 h2
        cases runChannels_getElem t values s.graph_info s.graph_count
            s.graphs 0 j with
        | inl hsame =>
          rw [h2] at hsame
          rw [h1] at hsame
          rw [Option.some.inj hsame]
        | inr h =>
          obtain ⟨g0, y, hg0, hres⟩ := h
          have hg0g : g0 = g := Option.some.inj (hg0.symm.trans h1)
          subst hg0g
          have hgs : g2 = stepGraph t y g0 := Option.some.inj (h2.symm.trans hres)
          rw [hgs, stepGraph_xmax]
          obtain ⟨n, hn⟩ := hint g0 (List.mem_iff_getElem?.mpr ⟨j, hg0⟩)
          rw [hn, pyTrunc_intCast]
          exact_mod_cast le_max_left n t
    · exact hid _ (by rw [update_graph_not_accepted hdec (not_lt.mp hgt)])

/-- C7, witness: the amended theorem at the one-channel session. -/
theorem C7_witness :
    c7State.graphs.headI.xmax ≤
      (processLine c7State "1,2.05,0,0,0".toList).graphs.headI.xmax := by
  have hint : ∀ g ∈ c7State.graphs, ∃ n : Int, g.xmax = (n : ℚ) := by
    intro g hg
    refine ⟨100, ?_⟩
    have hx : c7State.graphs.map GraphState.xmax = [100] := by
      with_unfolding_all decide
    have hmem : g.xmax ∈ c7State.graphs.map GraphState.xmax :=
      List.mem_map_of_mem _ hg
    rw [hx] at hmem
    have h100 : g.xmax = 100 := by simpa using hmem
    rw [h100]
    norm_num
  exact (C7_xmax_monotone c7State "1,2.05,0,0,0".toList hint).2 0 _ _
    (by with_unfolding_all decide) (by with_unfolding_all decide)
